import Mathlib

/-!
Shallow embedding of the GhostGoat cipher pipeline
(src/ACS_SYSTEM/cipherdsl/out/rust/src/main.rs).

Bytes are modelled as `Nat` and byte buffers as `List Nat`.  The JSON and
base64 bundle codec and the file I/O are out-of-scope collaborators (spec
section 1), so bundle fields hold the decoded byte payloads directly.
Rust panics and `expect` failures are modelled as `Option.none`.
-/

namespace GhostGoat

/-- Big-endian 8-byte encoding of a 64-bit counter (`u64::to_be_bytes`). -/
def u64_be_bytes (n : Nat) : List Nat :=
  [n / 2 ^ 56 % 256, n / 2 ^ 48 % 256, n / 2 ^ 40 % 256, n / 2 ^ 32 % 256,
   n / 2 ^ 24 % 256, n / 2 ^ 16 % 256, n / 2 ^ 8 % 256, n % 256]

/-- Bytes of a string literal (`str::as_bytes`); all string literals the
program feeds to it (seeds, AAD labels, op tags) are ASCII, where UTF-8
bytes and code points coincide. -/
def strBytes (s : String) : List Nat :=
  s.data.map Char.toNat

/-- Value of one hexadecimal digit, upper or lower case (`hex` crate). -/
def hexDigitVal (c : Char) : Option Nat :=
  let n := c.toNat
  if 48 ≤ n ∧ n ≤ 57 then some (n - 48)
  else if 97 ≤ n ∧ n ≤ 102 then some (n - 87)
  else if 65 ≤ n ∧ n ≤ 70 then some (n - 55)
  else none

/-- Hex decoding of a character list (`hex::decode`): fails on odd length
or on any non-hex character. -/
def hexDecode : List Char → Option (List Nat)
  | [] => some []
  | [_] => none
  | c1 :: c2 :: rest =>
    match hexDigitVal c1, hexDigitVal c2, hexDecode rest with
    | some h, some l, some bs => some ((h * 16 + l) :: bs)
    | _, _, _ => none

/-- Boolean prefix test on character lists (`str::starts_with`). -/
def startsWithChars : List Char → List Char → Bool
  | [], _ => true
  | _ :: _, [] => false
  | a :: as, b :: bs => a = b && startsWithChars as bs

lemma startsWithChars_length_le :
    ∀ p s : List Char, startsWithChars p s = true → p.length ≤ s.length := by
  intro p
  induction p with
  | nil => intro s _; simp
  | cons a as ih =>
    intro s h
    cases s with
    | nil => simp [startsWithChars] at h
    | cons b bs =>
      simp only [startsWithChars, Bool.and_eq_true] at h
      simpa using ih bs h.2

/-- Repeatedly strip a leading occurrence of `p` (`str::trim_start_matches`). -/
def stripAllLeading (p : List Char) (s : List Char) : List Char :=
  if h : p ≠ [] ∧ startsWithChars p s = true then
    stripAllLeading p (s.drop p.length)
  else s
termination_by s.length
decreasing_by
  have hle := startsWithChars_length_le p s h.2
  have hp : 0 < p.length := List.length_pos.mpr h.1
  simp only [List.length_drop]
  omega

/-- Port of `parse_seed`: a literal starting with `0x` or `0X` is
hex-decoded after stripping those prefixes (bad hex is fatal, modelled as
`none`); any other literal is taken as its raw bytes. -/
def parse_seed (seed : String) : Option (List Nat) :=
  if startsWithChars "0x".data seed.data || startsWithChars "0X".data seed.data then
    hexDecode (stripAllLeading "0X".data (stripAllLeading "0x".data seed.data))
  else
    some (strBytes seed)

/-- Port of the key-initialization block of `main` (both `Enc` and `Dec`
arms): the seed bytes fill a zeroed 32-byte buffer, truncated to the first
32 bytes when longer, zero-padded on the right when shorter. -/
def mkInitialKey (seedb : List Nat) : List Nat :=
  if 32 ≤ seedb.length then seedb.take 32
  else seedb ++ List.replicate (32 - seedb.length) 0

/-- Streaming hash context (`Sha3_512::new` / `update`): absorbing input is
modelled as buffering the fed bytes; the Keccak permutation itself lives in
the external `sha3` crate, so the digest function is a parameter `sha3`
(a map from the full input to the 64-byte digest) throughout. -/
structure Sha3Ctx where
  buf : List Nat

def Sha3Ctx.new : Sha3Ctx := ⟨[]⟩

def Sha3Ctx.update (h : Sha3Ctx) (xs : List Nat) : Sha3Ctx := ⟨h.buf ++ xs⟩

def Sha3Ctx.finalize (sha3 : List Nat → List Nat) (h : Sha3Ctx) : List Nat :=
  sha3 h.buf

/-- Port of `rolling_key`: feed the current key, the big-endian counter
bytes and the extra bytes to SHA3-512 and keep the first 32 digest bytes. -/
def rolling_key (sha3 : List Nat → List Nat) (cur : List Nat) (counter : Nat)
    (extra : List Nat) : List Nat :=
  let h := Sha3Ctx.new
  let h := h.update cur
  let h := h.update (u64_be_bytes counter)
  let h := h.update extra
  let out := h.finalize sha3
  out.take 32

/-- Modelled from the spec: the 16-byte authentication tag of the idealized
AEAD contract of spec section 4.2 (the AES-GCM and ChaCha20-Poly1305
primitives live in external crates).  Byte 0 is the backend identifier and
the remaining bytes depend on key, nonce, message and associated data; the
development only relies on tags of distinct backends being distinct. -/
def mkTag (backend : Nat) (key nonce msg aad : List Nat) : List Nat :=
  backend :: List.replicate 15 ((key.sum + nonce.sum + msg.sum + aad.sum) % 256)

/-- Modelled from the spec: idealized AEAD encryption, returning the
ciphertext with the authentication tag embedded at its end (spec section
4.2: the chosen constructions append the tag to the ciphertext). -/
def aeadEncrypt (backend : Nat) (key nonce pt aad : List Nat) : List Nat :=
  pt ++ mkTag backend key nonce pt aad

/-- Modelled from the spec: idealized AEAD decryption, splitting off the
trailing 16-byte tag and verifying it; failure is `none`
(`AuthenticationFailure`). -/
def aeadDecrypt (backend : Nat) (key nonce ct aad : List Nat) : Option (List Nat) :=
  if 16 ≤ ct.length then
    let body := ct.take (ct.length - 16)
    let t := ct.drop (ct.length - 16)
    if t = mkTag backend key nonce body aad then some body else none
  else none

/-- Port of `aesgcm_encrypt` over the idealized AEAD; the fresh random
nonce of the source is drawn by the caller from its RNG stream and passed
in explicitly. -/
def aesgcm_encrypt (k nonce pt aad : List Nat) : List Nat :=
  aeadEncrypt 0 k nonce pt aad

/-- Port of `aesgcm_decrypt` over the idealized AEAD. -/
def aesgcm_decrypt (k nonce ct aad : List Nat) : Option (List Nat) :=
  aeadDecrypt 0 k nonce ct aad

/-- Port of `chacha_encrypt` over the idealized AEAD. -/
def chacha_encrypt (k nonce pt aad : List Nat) : List Nat :=
  aeadEncrypt 1 k nonce pt aad

/-- Port of `chacha_decrypt` over the idealized AEAD. -/
def chacha_decrypt (k nonce ct aad : List Nat) : Option (List Nat) :=
  aeadDecrypt 1 k nonce ct aad

/-- Port of `StepOut`; the `nonce`, `tag` and `aad` fields hold the decoded
bytes of the `nonce_b64`, `tag_b64` and `aad_b64` fields (the base64 text
transport is out-of-scope codec). -/
structure StepOut where
  op : String
  nonce : Option (List Nat)
  tag : Option (List Nat)
  aad : Option (List Nat)
deriving DecidableEq

/-- One entry of the parsed `PIPELINE_JSON` array: the fields `main` reads
(`op`, `aad`) plus the `extra` field present on the ratchet entry, which the
code never reads. -/
structure PipeStep where
  op : String
  aad : Option String
  extra : Option String
deriving DecidableEq

/-- Port of `Bundle`; `data` holds the decoded bytes of `data_b64`. -/
structure Bundle where
  id : String
  steps : List StepOut
  data : List Nat
deriving DecidableEq

/-- The parsed `PIPELINE_JSON` constant. -/
def PIPELINE : List PipeStep :=
  [⟨"rolling_key", none, some "time_ns"⟩,
   ⟨"aesgcm_enc", some "adap", none⟩,
   ⟨"chacha20poly1305_enc", some "evolve", none⟩]

/-- Port of the step loop of `main`'s `Cmd::Enc` arm.  The state carried is
`(nonce index, key, counter, data)`; `rng i` models the `i`-th 12-byte
buffer filled from `OsRng` during the invocation.  The result is the list
of emitted step records together with the final
`(key, counter, data, nonce index)`; an unsupported op tag panics,
modelled as `none`. -/
def encWalk (sha3 : List Nat → List Nat) (rng : Nat → List Nat) :
    List PipeStep → Nat → List Nat → Nat → List Nat →
    Option (List StepOut × List Nat × Nat × List Nat × Nat)
  | [], ni, key, counter, data => some ([], key, counter, data, ni)
  | s :: rest, ni, key, counter, data =>
    if s.op = "rolling_key" then
      let extra := u64_be_bytes counter
      let key2 := rolling_key sha3 key counter extra
      (encWalk sha3 rng rest ni key2 (counter + 1) data).map
        (fun r => (⟨s.op, none, none, none⟩ :: r.1, r.2))
    else if s.op = "chacha20poly1305_enc" then
      let aadb := strBytes (s.aad.getD "")
      let nonce := rng ni
      let ct := chacha_encrypt key nonce data aadb
      (encWalk sha3 rng rest (ni + 1) key counter ct).map
        (fun r => (⟨s.op, some nonce, none, some aadb⟩ :: r.1, r.2))
    else if s.op = "aesgcm_enc" then
      let aadb := strBytes (s.aad.getD "")
      let nonce := rng ni
      let ct := aesgcm_encrypt key nonce data aadb
      (encWalk sha3 rng rest (ni + 1) key counter ct).map
        (fun r => (⟨s.op, some nonce, none, some aadb⟩ :: r.1, r.2))
    else none

/-- Port of the step loop of `main`'s `Cmd::Dec` arm: replay the recorded
steps in the same stored order, substituting the inverse AEAD operation in
place.  A missing nonce field (`unwrap`) and a nonce whose decoded length
is not 12 (`copy_from_slice`) panic, modelled as `none`, while a missing
aad field defaults to the empty byte string (`unwrap_or_default`); an
authentication failure (`expect`) or an unsupported op tag also yields
`none`.  The result is the final `(key, counter, data)`. -/
def decWalk (sha3 : List Nat → List Nat) :
    List StepOut → List Nat → Nat → List Nat →
    Option (List Nat × Nat × List Nat)
  | [], key, counter, data => some (key, counter, data)
  | s :: rest, key, counter, data =>
    if s.op = "rolling_key" then
      let extra := u64_be_bytes counter
      decWalk sha3 rest (rolling_key sha3 key counter extra) (counter + 1) data
    else if s.op = "chacha20poly1305_enc" then
      match s.nonce with
      | none => none
      | some nb =>
        if nb.length = 12 then
          match chacha_decrypt key nb data (s.aad.getD []) with
          | none => none
          | some d2 => decWalk sha3 rest key counter d2
        else none
    else if s.op = "aesgcm_enc" then
      match s.nonce with
      | none => none
      | some nb =>
        if nb.length = 12 then
          match aesgcm_decrypt key nb data (s.aad.getD []) with
          | none => none
          | some d2 => decWalk sha3 rest key counter d2
        else none
    else none

/-- Port of `main`'s `Cmd::Enc` arm: parse the seed, build the initial
key, walk the fixed pipeline from counter 1, and pack the records and the
final data into a bundle.  The random bundle id of the source is the
parameter `idv`. -/
def encMain (sha3 : List Nat → List Nat) (rng : Nat → List Nat) (idv : String)
    (seed : String) (pt : List Nat) : Option Bundle :=
  match parse_seed seed with
  | none => none
  | some seedb =>
    match encWalk sha3 rng PIPELINE 0 (mkInitialKey seedb) 1 pt with
    | none => none
    | some r => some ⟨idv, r.1, r.2.2.2.1⟩

/-- Port of `main`'s `Cmd::Dec` arm: parse the seed, build the initial
key, replay the bundle's recorded steps from counter 1 on the bundle's
data, and return the final data.  The bundle's `id` field is never read. -/
def decMain (sha3 : List Nat → List Nat) (seed : String) (b : Bundle) :
    Option (List Nat) :=
  match parse_seed seed with
  | none => none
  | some seedb =>
    (decWalk sha3 b.steps (mkInitialKey seedb) 1 b.data).map (fun r => r.2.2)

/-- A decrypt invocation in the presence of the ambient process RNG stream
`rng`: the `Cmd::Dec` arm of `main` contains no call that samples it, so
the definition ignores `rng`. -/
def decInvoke (sha3 : List Nat → List Nat) (rng : Nat → List Nat)
    (seed : String) (b : Bundle) : Option (List Nat) :=
  decMain sha3 seed b

/-- Counter value after processing a list of op tags starting from `c`:
each `rolling_key` tag adds exactly 1; no other tag changes it. -/
def counterAfter : List String → Nat → Nat
  | [], c => c
  | op :: rest, c => counterAfter rest (if op = "rolling_key" then c + 1 else c)

lemma mkTag_length (b : Nat) (k n m a : List Nat) : (mkTag b k n m a).length = 16 := by
  simp [mkTag]

/-- Decrypting under one backend a ciphertext produced by a different
backend fails: the embedded tags of distinct backends never coincide. -/
lemma aeadDecrypt_cross (b1 b2 : Nat) (hne : b1 ≠ b2) (k n a k2 n2 a2 m : List Nat) :
    aeadDecrypt b1 k n (aeadEncrypt b2 k2 n2 m a2) a = none := by
  have hlen : (m ++ mkTag b2 k2 n2 m a2).length = m.length + 16 := by
    simp [mkTag]
  have hm : m.length = m.length + 16 - 16 := by omega
  simp only [aeadDecrypt, aeadEncrypt, hlen]
  rw [if_pos (by omega)]
  rw [List.take_left' hm, List.drop_left' hm]
  rw [if_neg]
  intro hEq
  have h2 : b2 = b1 ∧ (k2.sum + n2.sum + m.sum + a2.sum) % 256 =
      (k.sum + n.sum + m.sum + a.sum) % 256 := by
    simpa [mkTag] using hEq
  exact hne h2.1.symm

/-- Evaluation of the encrypt walk on the fixed three-step pipeline. -/
lemma encWalk_pipeline (sha3 : List Nat → List Nat) (rng : Nat → List Nat)
    (k0 d : List Nat) :
    encWalk sha3 rng PIPELINE 0 k0 1 d =
      some ([⟨"rolling_key", none, none, none⟩,
             ⟨"aesgcm_enc", some (rng 0), none, some (strBytes "adap")⟩,
             ⟨"chacha20poly1305_enc", some (rng 1), none, some (strBytes "evolve")⟩],
            rolling_key sha3 k0 1 (u64_be_bytes 1), 2,
            chacha_encrypt (rolling_key sha3 k0 1 (u64_be_bytes 1)) (rng 1)
              (aesgcm_encrypt (rolling_key sha3 k0 1 (u64_be_bytes 1)) (rng 0) d
                (strBytes "adap"))
              (strBytes "evolve"), 2) := by
  rfl

lemma encWalk_cons_ratchet (sha3 : List Nat → List Nat) (rng : Nat → List Nat)
    (s : PipeStep) (rest : List PipeStep) (ni : Nat) (key : List Nat) (c : Nat)
    (d : List Nat) (h : s.op = "rolling_key") :
    encWalk sha3 rng (s :: rest) ni key c d =
      (encWalk sha3 rng rest ni (rolling_key sha3 key c (u64_be_bytes c)) (c + 1) d).map
        (fun r => (⟨s.op, none, none, none⟩ :: r.1, r.2)) := by
  simp [encWalk, h]

lemma encWalk_cons_chacha (sha3 : List Nat → List Nat) (rng : Nat → List Nat)
    (s : PipeStep) (rest : List PipeStep) (ni : Nat) (key : List Nat) (c : Nat)
    (d : List Nat) (h : s.op = "chacha20poly1305_enc") :
    encWalk sha3 rng (s :: rest) ni key c d =
      (encWalk sha3 rng rest (ni + 1) key c
          (chacha_encrypt key (rng ni) d (strBytes (s.aad.getD "")))).map
        (fun r => (⟨s.op, some (rng ni), none, some (strBytes (s.aad.getD ""))⟩ :: r.1, r.2)) := by
  simp [encWalk, h]

lemma encWalk_cons_aes (sha3 : List Nat → List Nat) (rng : Nat → List Nat)
    (s : PipeStep) (rest : List PipeStep) (ni : Nat) (key : List Nat) (c : Nat)
    (d : List Nat) (h : s.op = "aesgcm_enc") :
    encWalk sha3 rng (s :: rest) ni key c d =
      (encWalk sha3 rng rest (ni + 1) key c
          (aesgcm_encrypt key (rng ni) d (strBytes (s.aad.getD "")))).map
        (fun r => (⟨s.op, some (rng ni), none, some (strBytes (s.aad.getD ""))⟩ :: r.1, r.2)) := by
  simp [encWalk, h]

lemma decWalk_cons_ratchet (sha3 : List Nat → List Nat) (s : StepOut)
    (rest : List StepOut) (key : List Nat) (c : Nat) (d : List Nat)
    (h : s.op = "rolling_key") :
    decWalk sha3 (s :: rest) key c d =
      decWalk sha3 rest (rolling_key sha3 key c (u64_be_bytes c)) (c + 1) d := by
  simp [decWalk, h]

lemma decWalk_cons_chacha (sha3 : List Nat → List Nat) (s : StepOut)
    (rest : List StepOut) (key : List Nat) (c : Nat) (d nb : List Nat)
    (h : s.op = "chacha20poly1305_enc") (hn : s.nonce = some nb)
    (h12 : nb.length = 12) :
    decWalk sha3 (s :: rest) key c d =
      (chacha_decrypt key nb d (s.aad.getD [])).bind
        (fun d2 => decWalk sha3 rest key c d2) := by
  simp only [decWalk, h, hn]
  norm_num [h12]
  cases chacha_decrypt key nb d (s.aad.getD []) <;> simp

lemma decWalk_cons_aes (sha3 : List Nat → List Nat) (s : StepOut)
    (rest : List StepOut) (key : List Nat) (c : Nat) (d nb : List Nat)
    (h : s.op = "aesgcm_enc") (hn : s.nonce = some nb) (h12 : nb.length = 12) :
    decWalk sha3 (s :: rest) key c d =
      (aesgcm_decrypt key nb d (s.aad.getD [])).bind
        (fun d2 => decWalk sha3 rest key c d2) := by
  simp only [decWalk, h, hn]
  norm_num [h12]
  cases aesgcm_decrypt key nb d (s.aad.getD []) <;> simp

lemma decWalk_cons_missing_nonce (sha3 : List Nat → List Nat) (s : StepOut)
    (rest : List StepOut) (key : List Nat) (c : Nat) (d : List Nat)
    (h : s.op = "chacha20poly1305_enc" ∨ s.op = "aesgcm_enc") (hn : s.nonce = none) :
    decWalk sha3 (s :: rest) key c d = none := by
  cases h with
  | inl h => simp [decWalk, h, hn]
  | inr h => simp [decWalk, h, hn]

lemma decWalk_cons_bad_nonce_len (sha3 : List Nat → List Nat) (s : StepOut)
    (rest : List StepOut) (key : List Nat) (c : Nat) (d nb : List Nat)
    (h : s.op = "chacha20poly1305_enc" ∨ s.op = "aesgcm_enc")
    (hn : s.nonce = some nb) (h12 : nb.length ≠ 12) :
    decWalk sha3 (s :: rest) key c d = none := by
  cases h with
  | inl h => simp [decWalk, h, hn, h12]
  | inr h => simp [decWalk, h, hn, h12]

lemma decWalk_cons_unknown (sha3 : List Nat → List Nat) (s : StepOut)
    (rest : List StepOut) (key : List Nat) (c : Nat) (d : List Nat)
    (h1 : s.op ≠ "rolling_key") (h2 : s.op ≠ "chacha20poly1305_enc")
    (h3 : s.op ≠ "aesgcm_enc") :
    decWalk sha3 (s :: rest) key c d = none := by
  simp [decWalk, h1, h2, h3]

/-- Structure of a successful encrypt walk: the emitted records carry the
op tags of the pipeline steps positionally, and the final counter is the
start counter plus one per `rolling_key` step. -/
lemma encWalk_shape (sha3 : List Nat → List Nat) (rng : Nat → List Nat) :
    ∀ (ps : List PipeStep) (ni : Nat) (key : List Nat) (c : Nat) (d : List Nat) out,
      encWalk sha3 rng ps ni key c d = some out →
      out.1.map StepOut.op = ps.map PipeStep.op ∧
        out.2.2.1 = counterAfter (ps.map PipeStep.op) c := by
  intro ps
  induction ps with
  | nil =>
    intro ni key c d out h
    simp only [encWalk] at h
    have hout := Option.some.inj h
    subst hout
    exact ⟨rfl, rfl⟩
  | cons s rest ih =>
    intro ni key c d out h
    by_cases h1 : s.op = "rolling_key"
    · rw [encWalk_cons_ratchet sha3 rng s rest ni key c d h1] at h
      obtain ⟨r, hr, hout⟩ := Option.map_eq_some'.mp h
      have hc := ih ni (rolling_key sha3 key c (u64_be_bytes c)) (c + 1) d r hr
      subst hout
      simp [counterAfter, h1, hc.1, hc.2]
    · by_cases h2 : s.op = "chacha20poly1305_enc"
      · rw [encWalk_cons_chacha sha3 rng s rest ni key c d h2] at h
        obtain ⟨r, hr, hout⟩ := Option.map_eq_some'.mp h
        have hc := ih (ni + 1) key c _ r hr
        subst hout
        simp [counterAfter, h2, hc.1, hc.2]
      · by_cases h3 : s.op = "aesgcm_enc"
        · rw [encWalk_cons_aes sha3 rng s rest ni key c d h3] at h
          obtain ⟨r, hr, hout⟩ := Option.map_eq_some'.mp h
          have hc := ih (ni + 1) key c _ r hr
          subst hout
          simp [counterAfter, h2, h3, hc.1, hc.2]
        · simp [encWalk, h1, h2, h3] at h

/-- Counter evolution of a successful decrypt walk: the final counter is
the start counter plus one per `rolling_key` record. -/
lemma decWalk_counter (sha3 : List Nat → List Nat) :
    ∀ (rs : List StepOut) (key : List Nat) (c : Nat) (d : List Nat) res,
      decWalk sha3 rs key c d = some res →
      res.2.1 = counterAfter (rs.map StepOut.op) c := by
  intro rs
  induction rs with
  | nil =>
    intro key c d res h
    simp only [decWalk] at h
    have hres := Option.some.inj h
    subst hres
    rfl
  | cons s rest ih =>
    intro key c d res h
    by_cases h1 : s.op = "rolling_key"
    · rw [decWalk_cons_ratchet sha3 s rest key c d h1] at h
      have hc := ih _ (c + 1) d res h
      simp [counterAfter, h1, hc]
    · by_cases h2 : s.op = "chacha20poly1305_enc"
      · cases hn : s.nonce with
        | none =>
          rw [decWalk_cons_missing_nonce sha3 s rest key c d (Or.inl h2) hn] at h
          cases h
        | some nb =>
          by_cases h12 : nb.length = 12
          · rw [decWalk_cons_chacha sha3 s rest key c d nb h2 hn h12] at h
            cases hcd : chacha_decrypt key nb d (s.aad.getD []) with
            | none => rw [hcd] at h; cases h
            | some d2 =>
              rw [hcd] at h
              have hc := ih key c d2 res (by simpa using h)
              simp [counterAfter, h2, hc]
          · rw [decWalk_cons_bad_nonce_len sha3 s rest key c d nb (Or.inl h2) hn h12] at h
            cases h
      · by_cases h3 : s.op = "aesgcm_enc"
        · cases hn : s.nonce with
          | none =>
            rw [decWalk_cons_missing_nonce sha3 s rest key c d (Or.inr h3) hn] at h
            cases h
          | some nb =>
            by_cases h12 : nb.length = 12
            · rw [decWalk_cons_aes sha3 s rest key c d nb h3 hn h12] at h
              cases hcd : aesgcm_decrypt key nb d (s.aad.getD []) with
              | none => rw [hcd] at h; cases h
              | some d2 =>
                rw [hcd] at h
                have hc := ih key c d2 res (by simpa using h)
                simp [counterAfter, h2, h3, hc]
            · rw [decWalk_cons_bad_nonce_len sha3 s rest key c d nb (Or.inr h3) hn h12] at h
              cases h
        · rw [decWalk_cons_unknown sha3 s rest key c d h1 h2 h3] at h
          cases h

/-- C5: the key-ratchet derivation equals the first 32 bytes of the
SHA3-512 digest of the concatenation of the current key, the big-endian
8-byte encoding of the counter, and the extra bytes; it is a total
function (no failure modes), and its output has 32 bytes whenever the
digest has the 64 bytes a 512-bit hash produces. -/
theorem c5_rolling_key_derivation (sha3 : List Nat → List Nat)
    (cur : List Nat) (counter : Nat) (extra : List Nat)
    (hlen : ∀ x, (sha3 x).length = 64) :
    rolling_key sha3 cur counter extra =
      (sha3 (cur ++ u64_be_bytes counter ++ extra)).take 32 ∧
    (rolling_key sha3 cur counter extra).length = 32 := by
  constructor
  · simp [rolling_key, Sha3Ctx.new, Sha3Ctx.update, Sha3Ctx.finalize]
  · simp [rolling_key, Sha3Ctx.new, Sha3Ctx.update, Sha3Ctx.finalize, hlen]

theorem c5_witness :
    rolling_key (fun _ => List.replicate 64 0) [1] 2 [3] =
      ((fun _ : List Nat => List.replicate 64 0) ([1] ++ u64_be_bytes 2 ++ [3])).take 32 ∧
    (rolling_key (fun _ => List.replicate 64 0) [1] 2 [3]).length = 32 :=
  c5_rolling_key_derivation (fun _ => List.replicate 64 0) [1] 2 [3] (fun _ => by simp)

/-- C6: seed normalization: a `0x`/`0X`-prefixed literal is hex-decoded
(failure being fatal, since `parse_seed` then returns exactly the
`hexDecode` result), any other literal is taken as its raw bytes; the
resulting byte sequence is truncated to its first 32 bytes when it has at
least 32, zero-padded on the right when shorter, and the initial key
always has exactly 32 bytes. -/
theorem c6_seed_normalization :
    (∀ s : String,
        (startsWithChars "0x".data s.data || startsWithChars "0X".data s.data) = true →
        parse_seed s =
          hexDecode (stripAllLeading "0X".data (stripAllLeading "0x".data s.data))) ∧
    (∀ s : String,
        (startsWithChars "0x".data s.data || startsWithChars "0X".data s.data) = false →
        parse_seed s = some (strBytes s)) ∧
    (∀ b : List Nat, 32 ≤ b.length → mkInitialKey b = b.take 32) ∧
    (∀ b : List Nat, b.length < 32 →
        mkInitialKey b = b ++ List.replicate (32 - b.length) 0) ∧
    (∀ b : List Nat, (mkInitialKey b).length = 32) := by
  refine ⟨?_, ?_, ?_, ?_, ?_⟩
  · intro s h
    simp [parse_seed, h]
  · intro s h
    simp [parse_seed, h]
  · intro b h
    simp [mkInitialKey, h]
  · intro b h
    rw [mkInitialKey, if_neg (by omega)]
  · intro b
    by_cases h : 32 ≤ b.length
    · rw [mkInitialKey, if_pos h]
      simp
      omega
    · rw [mkInitialKey, if_neg h]
      simp
      omega

theorem c6_witness :
    parse_seed "0x41" =
      hexDecode (stripAllLeading "0X".data (stripAllLeading "0x".data "0x41".data)) ∧
    parse_seed "seed" = some (strBytes "seed") ∧
    mkInitialKey (List.replicate 40 7) = (List.replicate 40 7).take 32 ∧
    mkInitialKey [5] = [5] ++ List.replicate (32 - [5].length) 0 ∧
    (mkInitialKey [5]).length = 32 :=
  ⟨c6_seed_normalization.1 "0x41" (by decide),
   c6_seed_normalization.2.1 "seed" (by decide),
   c6_seed_normalization.2.2.1 _ (by simp),
   c6_seed_normalization.2.2.2.1 [5] (by simp),
   c6_seed_normalization.2.2.2.2 [5]⟩

/-- C9: the decrypt result does not depend on the bundle's `id` field:
two bundles agreeing on `steps` and `data` decrypt identically under any
seed. -/
theorem c9_id_independence (sha3 : List Nat → List Nat) (seed : String)
    (b1 b2 : Bundle) (hs : b1.steps = b2.steps) (hd : b1.data = b2.data) :
    decMain sha3 seed b1 = decMain sha3 seed b2 := by
  unfold decMain
  rw [hs, hd]

theorem c9_witness :
    decMain (fun _ => List.replicate 64 0) "k" ⟨"aaaaaaaaaaaaaaaa", [], [1, 2]⟩ =
      decMain (fun _ => List.replicate 64 0) "k" ⟨"bbbbbbbbbbbbbbbb", [], [1, 2]⟩ :=
  c9_id_independence _ "k" _ _ rfl rfl

/-- C10: decrypt is deterministic: its result is a function of the seed
and the bundle alone, unchanged under any two ambient RNG streams, while
encrypt does consume the RNG (two streams can produce different bundles,
through the recorded nonces). -/
theorem c10_decrypt_deterministic :
    (∀ (sha3 : List Nat → List Nat) (rng1 rng2 : Nat → List Nat) (seed : String)
        (b : Bundle), decInvoke sha3 rng1 seed b = decInvoke sha3 rng2 seed b) ∧
    (∃ (sha3 : List Nat → List Nat) (rng1 rng2 : Nat → List Nat) (idv seed : String)
        (pt : List Nat), encMain sha3 rng1 idv seed pt ≠ encMain sha3 rng2 idv seed pt) := by
  refine ⟨fun _ _ _ _ _ => rfl,
    ⟨fun _ => List.replicate 64 0, fun _ => List.replicate 12 0,
     fun _ => List.replicate 12 1, "00", "k", [], ?_⟩⟩
  decide

/-- Replaying the records emitted by the pipeline encrypt walk fails at
the AES-GCM record: the data at that point is the outer ChaCha20-Poly1305
ciphertext, whose embedded tag cannot verify as an AES-GCM tag. -/
lemma decWalk_enc_records_fail (sha3 : List Nat → List Nat) (rng : Nat → List Nat)
    (k0 d : List Nat) :
    decWalk sha3
        [⟨"rolling_key", none, none, none⟩,
         ⟨"aesgcm_enc", some (rng 0), none, some (strBytes "adap")⟩,
         ⟨"chacha20poly1305_enc", some (rng 1), none, some (strBytes "evolve")⟩]
        k0 1
        (chacha_encrypt (rolling_key sha3 k0 1 (u64_be_bytes 1)) (rng 1)
          (aesgcm_encrypt (rolling_key sha3 k0 1 (u64_be_bytes 1)) (rng 0) d
            (strBytes "adap"))
          (strBytes "evolve")) = none := by
  rw [decWalk_cons_ratchet sha3 _ _ _ _ _ rfl]
  by_cases h12 : (rng 0).length = 12
  · rw [decWalk_cons_aes sha3 _ _ _ _ _ (rng 0) rfl rfl h12]
    have hc : aesgcm_decrypt (rolling_key sha3 k0 1 (u64_be_bytes 1)) (rng 0)
        (chacha_encrypt (rolling_key sha3 k0 1 (u64_be_bytes 1)) (rng 1)
          (aesgcm_encrypt (rolling_key sha3 k0 1 (u64_be_bytes 1)) (rng 0) d
            (strBytes "adap"))
          (strBytes "evolve"))
        ((some (strBytes "adap")).getD []) = none := by
      simpa [aesgcm_decrypt, chacha_encrypt] using
        aeadDecrypt_cross 0 1 (by omega) (rolling_key sha3 k0 1 (u64_be_bytes 1)) (rng 0)
          (strBytes "adap") (rolling_key sha3 k0 1 (u64_be_bytes 1)) (rng 1)
          (strBytes "evolve")
          (aesgcm_encrypt (rolling_key sha3 k0 1 (u64_be_bytes 1)) (rng 0) d
            (strBytes "adap"))
    rw [hc]
    rfl
  · rw [decWalk_cons_bad_nonce_len sha3 _ _ _ _ _ (rng 0) (Or.inr rfl) rfl h12]

/-- C1 (refuted by the code): decrypting a bundle produced by encrypt,
with the very seed used to encrypt, never returns the plaintext — it
always fails, because the decrypt walk replays the recorded order and so
applies the AES-GCM inverse to the outer ChaCha20-Poly1305 ciphertext. -/
theorem c1_roundtrip_fails (sha3 : List Nat → List Nat) (rng : Nat → List Nat)
    (idv seed : String) (pt : List Nat) (b : Bundle)
    (h : encMain sha3 rng idv seed pt = some b) :
    decMain sha3 seed b = none := by
  cases hps : parse_seed seed with
  | none => simp [encMain, hps] at h
  | some seedb =>
    simp only [encMain, hps, encWalk_pipeline, Option.some.injEq] at h
    subst h
    simp only [decMain, hps]
    rw [decWalk_enc_records_fail sha3 rng (mkInitialKey seedb) pt]
    rfl

theorem c1_witness :
    decMain (fun _ => List.replicate 64 0) "k"
      ⟨"00",
       [⟨"rolling_key", none, none, none⟩,
        ⟨"aesgcm_enc", some (List.replicate 12 0), none, some [97, 100, 97, 112]⟩,
        ⟨"chacha20poly1305_enc", some (List.replicate 12 0), none,
          some [101, 118, 111, 108, 118, 101]⟩],
       [104, 105, 0] ++ List.replicate 15 103 ++ [1] ++ List.replicate 15 107⟩ = none :=
  c1_roundtrip_fails (fun _ => List.replicate 64 0) (fun _ => List.replicate 12 0)
    "00" "k" [104, 105] _ (by decide)

/-- C2: the decrypt walk iterates the records in the same stored order,
substituting each AEAD step's inverse in place and ratcheting exactly as
encrypt does: on the three-step pipeline shape it first applies the
AES-GCM inverse to the bundle data under the once-ratcheted key, and only
then the ChaCha20-Poly1305 inverse to that result under the same key. -/
theorem c2_decrypt_order (sha3 : List Nat → List Nat) (k d n1 n2 a1 a2 : List Nat)
    (t1 t2 : Option (List Nat)) (h1 : n1.length = 12) (h2 : n2.length = 12) :
    decWalk sha3
        [⟨"rolling_key", none, none, none⟩,
         ⟨"aesgcm_enc", some n1, t1, some a1⟩,
         ⟨"chacha20poly1305_enc", some n2, t2, some a2⟩] k 1 d =
      (aesgcm_decrypt (rolling_key sha3 k 1 (u64_be_bytes 1)) n1 d a1).bind
        (fun d1 =>
          (chacha_decrypt (rolling_key sha3 k 1 (u64_be_bytes 1)) n2 d1 a2).map
            (fun d2 => (rolling_key sha3 k 1 (u64_be_bytes 1), 2, d2))) := by
  rw [decWalk_cons_ratchet sha3 _ _ _ _ _ rfl]
  rw [decWalk_cons_aes sha3 _ _ _ _ _ n1 rfl rfl h1]
  simp only [Option.getD_some]
  cases hA : aesgcm_decrypt (rolling_key sha3 k 1 (u64_be_bytes 1)) n1 d a1 with
  | none => simp
  | some d1 =>
    simp only [Option.some_bind]
    rw [decWalk_cons_chacha sha3 _ _ _ _ _ n2 rfl rfl h2]
    simp only [Option.getD_some]
    cases hC : chacha_decrypt (rolling_key sha3 k 1 (u64_be_bytes 1)) n2 d1 a2 with
    | none => simp
    | some d2 => simp [decWalk]

theorem c2_witness :
    decWalk (fun _ => List.replicate 64 0)
        [⟨"rolling_key", none, none, none⟩,
         ⟨"aesgcm_enc", some (List.replicate 12 0), none, some []⟩,
         ⟨"chacha20poly1305_enc", some (List.replicate 12 0), none, some []⟩] [] 1 [9] =
      (aesgcm_decrypt (rolling_key (fun _ => List.replicate 64 0) [] 1 (u64_be_bytes 1))
          (List.replicate 12 0) [9] []).bind
        (fun d1 =>
          (chacha_decrypt (rolling_key (fun _ => List.replicate 64 0) [] 1 (u64_be_bytes 1))
              (List.replicate 12 0) d1 []).map
            (fun d2 =>
              (rolling_key (fun _ => List.replicate 64 0) [] 1 (u64_be_bytes 1), 2, d2))) :=
  c2_decrypt_order (fun _ => List.replicate 64 0) [] [9] (List.replicate 12 0)
    (List.replicate 12 0) [] [] none none (by decide) (by decide)

/-- C7: both walks start the counter at 1 and bump it by exactly 1 on
each `rolling_key` step and on no other kind — this progression is
`counterAfter` over the op tags.  A successful encrypt walk emits records
carrying exactly the pipeline's op tags, so a decrypt replay of those
records reaches the same final counter, and on every prefix of the
records the counter equals the one of the corresponding pipeline prefix. -/
theorem c7_counter_progression (sha3 : List Nat → List Nat) (rng : Nat → List Nat)
    (ps : List PipeStep) (ni : Nat) (k0 d0 : List Nat)
    (out : List StepOut × List Nat × Nat × List Nat × Nat)
    (kd dd : List Nat) (res : List Nat × Nat × List Nat)
    (he : encWalk sha3 rng ps ni k0 1 d0 = some out)
    (hd : decWalk sha3 out.1 kd 1 dd = some res) :
    out.1.map StepOut.op = ps.map PipeStep.op ∧
    out.2.2.1 = counterAfter (ps.map PipeStep.op) 1 ∧
    res.2.1 = out.2.2.1 ∧
    (∀ (i : Nat) (res2 : List Nat × Nat × List Nat),
        decWalk sha3 (out.1.take i) kd 1 dd = some res2 →
        res2.2.1 = counterAfter ((ps.map PipeStep.op).take i) 1) := by
  obtain ⟨hops, hcnt⟩ := encWalk_shape sha3 rng ps ni k0 1 d0 out he
  refine ⟨hops, hcnt, ?_, ?_⟩
  · rw [decWalk_counter sha3 out.1 kd 1 dd res hd, hops, hcnt]
  · intro i res2 h2
    rw [decWalk_counter sha3 _ kd 1 dd res2 h2, List.map_take, hops]

theorem c7_witness :
    (([⟨"rolling_key", none, none, none⟩] : List StepOut).map StepOut.op =
      ([⟨"rolling_key", none, some "time_ns"⟩] : List PipeStep).map PipeStep.op) ∧
    ((2 : Nat) =
      counterAfter (([⟨"rolling_key", none, some "time_ns"⟩] : List PipeStep).map
        PipeStep.op) 1) ∧
    ((2 : Nat) = (2 : Nat)) := by
  have h := c7_counter_progression (fun _ => List.replicate 64 0)
    (fun _ => List.replicate 12 0) [⟨"rolling_key", none, some "time_ns"⟩] 0 [] []
    ([⟨"rolling_key", none, none, none⟩], List.replicate 32 0, 2, [], 0) [] []
    (List.replicate 32 0, 2, []) (by decide) (by decide)
  exact ⟨h.1, h.2.1, h.2.2.1⟩

/-- C8: frame effect of the walks: an AEAD step passes the key and the
counter through unchanged in both directions (it only transforms the
data), and a `rolling_key` step changes only the key and the counter and
never the data; so the key an AEAD step uses is exactly the ratchet value
in effect when the walk reaches it. -/
theorem c8_aead_frame (sha3 : List Nat → List Nat) (rng : Nat → List Nat) :
    (∀ (s : PipeStep) (rest : List PipeStep) (ni : Nat) (key : List Nat) (c : Nat)
        (d : List Nat), s.op = "aesgcm_enc" →
        encWalk sha3 rng (s :: rest) ni key c d =
          (encWalk sha3 rng rest (ni + 1) key c
              (aesgcm_encrypt key (rng ni) d (strBytes (s.aad.getD "")))).map
            (fun r =>
              (⟨s.op, some (rng ni), none, some (strBytes (s.aad.getD ""))⟩ :: r.1, r.2))) ∧
    (∀ (s : PipeStep) (rest : List PipeStep) (ni : Nat) (key : List Nat) (c : Nat)
        (d : List Nat), s.op = "chacha20poly1305_enc" →
        encWalk sha3 rng (s :: rest) ni key c d =
          (encWalk sha3 rng rest (ni + 1) key c
              (chacha_encrypt key (rng ni) d (strBytes (s.aad.getD "")))).map
            (fun r =>
              (⟨s.op, some (rng ni), none, some (strBytes (s.aad.getD ""))⟩ :: r.1, r.2))) ∧
    (∀ (s : PipeStep) (rest : List PipeStep) (ni : Nat) (key : List Nat) (c : Nat)
        (d : List Nat), s.op = "rolling_key" →
        encWalk sha3 rng (s :: rest) ni key c d =
          (encWalk sha3 rng rest ni (rolling_key sha3 key c (u64_be_bytes c)) (c + 1) d).map
            (fun r => (⟨s.op, none, none, none⟩ :: r.1, r.2))) ∧
    (∀ (s : StepOut) (rest : List StepOut) (key : List Nat) (c : Nat) (d nb : List Nat),
        s.op = "aesgcm_enc" → s.nonce = some nb → nb.length = 12 →
        decWalk sha3 (s :: rest) key c d =
          (aesgcm_decrypt key nb d (s.aad.getD [])).bind
            (fun d2 => decWalk sha3 rest key c d2)) ∧
    (∀ (s : StepOut) (rest : List StepOut) (key : List Nat) (c : Nat) (d nb : List Nat),
        s.op = "chacha20poly1305_enc" → s.nonce = some nb → nb.length = 12 →
        decWalk sha3 (s :: rest) key c d =
          (chacha_decrypt key nb d (s.aad.getD [])).bind
            (fun d2 => decWalk sha3 rest key c d2)) ∧
    (∀ (s : StepOut) (rest : List StepOut) (key : List Nat) (c : Nat) (d : List Nat),
        s.op = "rolling_key" →
        decWalk sha3 (s :: rest) key c d =
          decWalk sha3 rest (rolling_key sha3 key c (u64_be_bytes c)) (c + 1) d) :=
  ⟨fun s rest ni key c d h => encWalk_cons_aes sha3 rng s rest ni key c d h,
   fun s rest ni key c d h => encWalk_cons_chacha sha3 rng s rest ni key c d h,
   fun s rest ni key c d h => encWalk_cons_ratchet sha3 rng s rest ni key c d h,
   fun s rest key c d nb h hn h12 => decWalk_cons_aes sha3 s rest key c d nb h hn h12,
   fun s rest key c d nb h hn h12 => decWalk_cons_chacha sha3 s rest key c d nb h hn h12,
   fun s rest key c d h => decWalk_cons_ratchet sha3 s rest key c d h⟩

theorem c8_witness :
    decWalk (fun _ => List.replicate 64 0)
        [⟨"aesgcm_enc", some (List.replicate 12 0), none, some []⟩] [] 5 [7] =
      (aesgcm_decrypt [] (List.replicate 12 0) [7]
          ((⟨"aesgcm_enc", some (List.replicate 12 0), none,
              some []⟩ : StepOut).aad.getD [])).bind
        (fun d2 => decWalk (fun _ => List.replicate 64 0) [] [] 5 d2) :=
  (c8_aead_frame (fun _ => List.replicate 64 0) (fun _ => List.replicate 12 0)).2.2.2.1
    _ [] [] 5 [7] _ rfl rfl (by decide)

/-- C3 is refuted by the code: a bundle whose single step record does not
match the fixed three-step pipeline is not rejected — decrypt replays it,
performs the AES-GCM decryption, and even succeeds. -/
theorem c3_counterexample :
    decMain (fun _ => List.replicate 64 0) "k"
        ⟨"0000000000000000",
         [⟨"aesgcm_enc", some (List.replicate 12 0), none, some []⟩],
         aesgcm_encrypt (mkInitialKey (strBytes "k")) (List.replicate 12 0) [104, 105] []⟩ =
      some [104, 105] ∧
    ([⟨"aesgcm_enc", some (List.replicate 12 0), none, some []⟩] : List StepOut).map
        StepOut.op ≠
      PIPELINE.map PipeStep.op := by
  constructor
  · decide
  · decide

/-- C3 (amended): decrypt performs no validation of the bundle's step
sequence against the fixed pipeline — a record with an unrecognized op
tag aborts the replay at the point it is reached, but records whose tags
are all recognized are replayed whatever their number and order, even
when the sequence differs from the pipeline definition. -/
theorem c3_no_sequence_validation :
    (∀ (sha3 : List Nat → List Nat) (s : StepOut) (rest : List StepOut)
        (key : List Nat) (c : Nat) (d : List Nat),
        s.op ≠ "rolling_key" → s.op ≠ "chacha20poly1305_enc" → s.op ≠ "aesgcm_enc" →
        decWalk sha3 (s :: rest) key c d = none) ∧
    (∃ b : Bundle, b.steps.map StepOut.op ≠ PIPELINE.map PipeStep.op ∧
        decMain (fun _ => List.replicate 64 0) "k" b ≠ none) := by
  constructor
  · exact fun sha3 s rest key c d h1 h2 h3 =>
      decWalk_cons_unknown sha3 s rest key c d h1 h2 h3
  · exact ⟨⟨"0000000000000000",
      [⟨"aesgcm_enc", some (List.replicate 12 1), none, some []⟩],
      aesgcm_encrypt (mkInitialKey (strBytes "k")) (List.replicate 12 1) [1] []⟩,
      by decide, by decide⟩

theorem c3_witness :
    decWalk (fun _ => List.replicate 64 0) [⟨"bogus_step", none, none, none⟩] [] 1 [2] =
      none :=
  c3_no_sequence_validation.1 _ _ [] [] 1 [2] (by decide) (by decide) (by decide)

/-- C4 is refuted by the code on its associated-data half: a bundle whose
AEAD step record has no aad field at all is not rejected — decrypt treats
the absent field as zero-length associated data and succeeds when the
ciphertext was produced under empty aad. -/
theorem c4_counterexample :
    decMain (fun _ => List.replicate 64 0) "k"
        ⟨"0000000000000000",
         [⟨"aesgcm_enc", some (List.replicate 12 0), none, none⟩],
         aesgcm_encrypt (mkInitialKey (strBytes "k")) (List.replicate 12 0) [42, 43] []⟩ =
      some [42, 43] := by
  decide

/-- C4 (amended): during decrypt a missing nonce field on an AEAD-tagged
record, or a nonce whose decoded length is not 12, is fatal — the walk
yields no output at all; an absent associated-data field, however, is not
fatal: it is interpreted as zero-length associated data handed to the
AEAD inverse. -/
theorem c4_nonce_fatal_aad_defaults :
    (∀ (sha3 : List Nat → List Nat) (s : StepOut) (rest : List StepOut)
        (key : List Nat) (c : Nat) (d : List Nat),
        (s.op = "chacha20poly1305_enc" ∨ s.op = "aesgcm_enc") → s.nonce = none →
        decWalk sha3 (s :: rest) key c d = none) ∧
    (∀ (sha3 : List Nat → List Nat) (s : StepOut) (rest : List StepOut)
        (key : List Nat) (c : Nat) (d nb : List Nat),
        (s.op = "chacha20poly1305_enc" ∨ s.op = "aesgcm_enc") → s.nonce = some nb →
        nb.length ≠ 12 → decWalk sha3 (s :: rest) key c d = none) ∧
    (∀ (sha3 : List Nat → List Nat) (s : StepOut) (rest : List StepOut)
        (key : List Nat) (c : Nat) (d nb : List Nat),
        s.op = "aesgcm_enc" → s.nonce = some nb → nb.length = 12 → s.aad = none →
        decWalk sha3 (s :: rest) key c d =
          (aesgcm_decrypt key nb d []).bind (fun d2 => decWalk sha3 rest key c d2)) ∧
    (∀ (sha3 : List Nat → List Nat) (s : StepOut) (rest : List StepOut)
        (key : List Nat) (c : Nat) (d nb : List Nat),
        s.op = "chacha20poly1305_enc" → s.nonce = some nb → nb.length = 12 →
        s.aad = none →
        decWalk sha3 (s :: rest) key c d =
          (chacha_decrypt key nb d []).bind (fun d2 => decWalk sha3 rest key c d2)) := by
  refine ⟨?_, ?_, ?_, ?_⟩
  · exact fun sha3 s rest key c d h hn =>
      decWalk_cons_missing_nonce sha3 s rest key c d h hn
  · exact fun sha3 s rest key c d nb h hn h12 =>
      decWalk_cons_bad_nonce_len sha3 s rest key c d nb h hn h12
  · intro sha3 s rest key c d nb h hn h12 ha
    rw [decWalk_cons_aes sha3 s rest key c d nb h hn h12, ha]
    simp only [Option.getD_none]
  · intro sha3 s rest key c d nb h hn h12 ha
    rw [decWalk_cons_chacha sha3 s rest key c d nb h hn h12, ha]
    simp only [Option.getD_none]

theorem c4_witness :
    decWalk (fun _ => List.replicate 64 0)
        [⟨"chacha20poly1305_enc", none, none, none⟩] [] 1 [3] = none :=
  c4_nonce_fatal_aad_defaults.1 _ _ [] [] 1 [3] (Or.inl rfl) rfl

end GhostGoat
